import Mathlib

/-!
Shallow embedding of the midway WebSocket framework
(`src/packages/ws/src/framework.ts`, class `MidwayWSFramework`) and proofs of
the specified properties of its upgrade gate, heartbeat monitor, event
dispatch and response binding.
-/

namespace MidwayWS

/-- A JavaScript runtime value, as far as the framework inspects one:
truthiness (`if (!result) return;`, `if (!authResult)`) and object-ness
(`Types.isObject(result)` in `formatResult`).  Object fields are kept flat
(string values) because the framework never looks inside them. -/
inductive JSValue where
  | undefined
  | jsNull
  | boolean (b : Bool)
  | number (n : Int)
  | nan
  | jsString (s : String)
  | obj (fields : List (String × String))
deriving DecidableEq

/-- JavaScript truthiness of a value: `undefined`, `null`, `false`, `0`,
`NaN` and the empty string are falsy, everything else is truthy. -/
def truthy : JSValue → Bool
  | .undefined => false
  | .jsNull => false
  | .boolean b => b
  | .number n => n != 0
  | .nan => false
  | .jsString s => s != ""
  | .obj _ => true

/-- `Types.isObject` on the values the framework can see. -/
def isObject : JSValue → Bool
  | .obj _ => true
  | _ => false

/-- Abstract serialization of an object payload to a wire string
(stands for `JSON.stringify`; the framework only forwards the string). -/
def stringifyFields : List (String × String) → String
  | [] => ""
  | (k, v) :: rest => k ++ ":" ++ v ++ ";" ++ stringifyFields rest

/-- `formatResult(result)` from framework.ts: object-shaped results are
serialized to a string, primitive results are sent as-is. -/
def formatResult (result : JSValue) : JSValue :=
  if isObject result then
    match result with
    | .obj fields => .jsString (stringifyFields fields)
    | r => r
  else result

/-- `WSEventTypeEnum`: the event kinds a decorated method can declare. -/
inductive WSEventTypeEnum where
  | ON_CONNECTION
  | ON_MESSAGE
  | ON_DISCONNECTION
  | EMIT
  | BROADCAST
deriving DecidableEq

/-- `WSEventInfo`: one event descriptor read from the metadata registry.
`messageEventName` is only meaningful for `ON_MESSAGE` descriptors. -/
structure WSEventInfo where
  eventType : WSEventTypeEnum
  propertyName : String
  messageEventName : String := ""
deriving DecidableEq

/-- The readiness state of a `ws` client (`WebSocket.OPEN` etc.). -/
inductive ReadyState where
  | CONNECTING
  | OPEN
  | CLOSING
  | CLOSED
deriving DecidableEq

/-- One entry of `this.app.clients`: a connected socket with an identity and
a readiness state. -/
structure Client where
  id : Nat
  readyState : ReadyState
deriving DecidableEq

/-- Observable actions performed by dispatch code on the transport:
`send` on a socket, calling an ack callback, logging, terminating a socket,
removing a listener.  The last two are in the vocabulary because the
transport offers them; the dispatch paths under proof must be shown never to
emit them. -/
inductive Effect where
  | send (target : Nat) (payload : JSValue)
  | ackCall (callback : Nat) (arg : JSValue)
  | logError
  | logWarn
  | terminate (target : Nat)
  | removeListener (event : String)
deriving DecidableEq

/-- Lookup of `methodMap[propertyName]` (a plain JS object used as a map
from method name to `{ responseEvents }`). -/
def lookupMethod (m : List (String × List WSEventInfo)) (p : String) :
    Option (List WSEventInfo) :=
  match m with
  | [] => none
  | (k, v) :: rest => if k = p then some v else lookupMethod rest p

/-- The broadcast loop of `bindSocketResponse`: send the payload to every
client whose `readyState` is `OPEN`, skipping all others. -/
def broadcastSends (clients : List Client) (payload : JSValue) : List Effect :=
  clients.filterMap fun c =>
    if c.readyState = .OPEN then some (.send c.id payload) else none

/-- The response-events loop of `bindSocketResponse`: for each stored
descriptor, `EMIT` sends to the originating socket, `BROADCAST` sends to
every open client. -/
def responseSends (events : List WSEventInfo) (originId : Nat)
    (clients : List Client) (payload : JSValue) : List Effect :=
  events.flatMap fun info =>
    match info.eventType with
    | .EMIT => [.send originId payload]
    | .BROADCAST => broadcastSends clients payload
    | _ => []

/-- `bindSocketResponse(result, socket, propertyName, methodMap)` from
framework.ts, with `socket` abstracted to its id and `this.app.clients` to
an explicit list.  A falsy result returns immediately; a present entry runs
its response events and falls back to a single send when the entry is empty;
an absent entry just sends to the originating socket. -/
def bindSocketResponse (result : JSValue) (originId : Nat)
    (propertyName : String) (methodMap : List (String × List WSEventInfo))
    (clients : List Client) : List Effect :=
  if truthy result = false then []
  else
    match lookupMethod methodMap propertyName with
    | some responseEvents =>
        responseSends responseEvents originId clients (formatResult result)
          ++ (if responseEvents.length = 0 then
                [.send originId (formatResult result)]
              else [])
    | none => [.send originId (formatResult result)]

/-- One positional argument of an inbound message event: either a data value
or a callable (an acknowledgment callback, identified by an id). -/
inductive JSArg where
  | value (v : JSValue)
  | callable (id : Nat)
deriving DecidableEq

/-- The outcome of running the composed middleware pipeline plus handler
body: either a resolved result or a raised failure. -/
inductive Outcome where
  | ok (result : JSValue)
  | thrown
deriving DecidableEq

/-- The `socket.on(messageEventName, ...)` listener body from
`addNamespace`: the try-block computes the handler result through the
middleware pipeline; if the final positional argument is a function it is
called with the raw result (ack), otherwise the result goes through
`bindSocketResponse`; any raised failure is caught and logged. -/
def onMessageDispatch (outcome : Outcome) (args : List JSArg)
    (originId : Nat) (propertyName : String)
    (methodMap : List (String × List WSEventInfo)) (clients : List Client) :
    List Effect :=
  match outcome with
  | .thrown => [.logError]
  | .ok result =>
    match args.getLast? with
    | some (.callable cb) => [.ackCall cb result]
    | _ => bindSocketResponse result originId propertyName methodMap clients

/-- The `socket.on('close', ...)` listener body from `addNamespace`: invoke
the handler with the close reason, route the result through
`bindSocketResponse`, catch and log any raised failure. -/
def onDisconnectDispatch (outcome : Outcome) (originId : Nat)
    (propertyName : String) (methodMap : List (String × List WSEventInfo))
    (clients : List Client) : List Effect :=
  match outcome with
  | .thrown => [.logError]
  | .ok result => bindSocketResponse result originId propertyName methodMap clients

/-- The outcome of the guarded on-connect invocation: the inner middleware
throws `MidwayInvokeForbiddenError` when `runGuard` reports failure, and
only otherwise calls the handler. -/
inductive ConnectOutcome where
  | ok (result : JSValue)
  | forbidden
  | thrown
deriving DecidableEq

/-- The innermost middleware of the `ON_CONNECTION` branch: check the
authorization guard; on failure raise `MidwayInvokeForbiddenError` without
calling the handler; on success call the handler.  The second component
records whether the handler was called. -/
def connectInvoke (isPassed : Bool) (handlerOutcome : Outcome) :
    ConnectOutcome × Bool :=
  if isPassed = false then (.forbidden, false)
  else
    match handlerOutcome with
    | .ok r => (.ok r, true)
    | .thrown => (.thrown, true)

/-- Result of running the whole `ON_CONNECTION` branch for one descriptor:
the effects performed and whether the handler body was reached. -/
structure ConnectStep where
  effects : List Effect
  handlerCalled : Bool
deriving DecidableEq

/-- The `ON_CONNECTION` branch of `addNamespace`: run the guarded
invocation inside try/catch; a resolved result goes through
`bindSocketResponse`; a forbidden-invocation failure or any other raised
failure is caught and logged, and nothing else happens to the socket. -/
def onConnectDispatch (isPassed : Bool) (handlerOutcome : Outcome)
    (originId : Nat) (propertyName : String)
    (methodMap : List (String × List WSEventInfo)) (clients : List Client) :
    ConnectStep :=
  match connectInvoke isPassed handlerOutcome with
  | (.ok r, called) =>
      ⟨bindSocketResponse r originId propertyName methodMap clients, called⟩
  | (.forbidden, called) => ⟨[.logError], called⟩
  | (.thrown, called) => ⟨[.logError], called⟩

/-! ## Upgrade gate (`run`, the `server.on('upgrade', ...)` listener) -/

/-- Observable actions of the upgrade listener. -/
inductive UpgradeEffect where
  | logWarn
  | logError
  | logDebug
  | socketDestroy
  | connectionEmit
deriving DecidableEq

/-- How `await this.upgradeAuthHandler(request, socket, head)` goes: the
promise resolves to some value, or it rejects / the handler throws. -/
inductive AuthEval where
  | resolves (v : JSValue)
  | throws
deriving DecidableEq

/-- The `server.on('upgrade', ...)` listener from `run`: with a registered
auth handler, a falsy resolved value logs a warning and destroys the socket,
a raised failure logs an error and destroys the socket, and only a truthy
value reaches `handleUpgrade`, whose callback emits `'connection'`; with no
handler registered the upgrade proceeds unconditionally. -/
def upgradeListener (upgradeAuthHandler : Option AuthEval) :
    List UpgradeEffect :=
  match upgradeAuthHandler with
  | some (.resolves v) =>
      if truthy v = false then [.logWarn, .socketDestroy]
      else [.logDebug, .connectionEmit]
  | some .throws => [.logError, .socketDestroy]
  | none => [.connectionEmit]

/-- What the connecting peer can observe of an upgrade attempt: whether the
socket was destroyed and whether a `'connection'` event was emitted. -/
def callerView (effects : List UpgradeEffect) : Bool × Bool :=
  (effects.contains .socketDestroy, effects.contains .connectionEmit)

/-! ## Heartbeat monitor (`startHeartBeat` and the `'pong'` listener) -/

/-- Per-socket heartbeat state: the `isAlive` flag set by `addNamespace` on
connection and by the `'pong'` listener, whether `terminate()` has been
called, and how many `ping()` calls were issued. -/
structure HBConn where
  isAlive : Bool
  terminated : Bool
  pings : Nat
deriving DecidableEq

/-- State of a socket right after the `'connection'` handler ran:
`socket.isAlive = true`, not terminated, no pings sent yet. -/
def initialConn : HBConn := ⟨true, false, 0⟩

/-- One `setInterval` tick of `startHeartBeat`, restricted to one socket of
`this.app.clients`: a socket with `isAlive === false` is terminated and (the
loop returns early) receives no ping; otherwise `isAlive` is cleared and a
ping is sent.  A terminated socket has left `this.app.clients`, so the sweep
no longer touches it. -/
def heartbeatTick (s : HBConn) : HBConn :=
  if s.terminated then s
  else if s.isAlive = false then { s with terminated := true }
  else { s with isAlive := false, pings := s.pings + 1 }

/-- The `socket.on('pong', ...)` listener: set `isAlive = true`.  A
terminated socket no longer delivers pongs. -/
def pongListener (s : HBConn) : HBConn :=
  if s.terminated then s else { s with isAlive := true }

/-- Run the heartbeat over a schedule: `answers` lists, for each successive
tick, whether a pong from this socket arrived in the interval before that
tick. -/
def runHeartbeat (answers : List Bool) (s : HBConn) : HBConn :=
  match answers with
  | [] => s
  | a :: rest => runHeartbeat rest (heartbeatTick (if a then pongListener s else s))

/-! ## Connection setup (`addNamespace`, the `'connection'` handler body)

The handler is an `async` function; every `await` inside it returns control
to the event loop, during which the transport may deliver inbound events.
The trace below records, in order, each such yield point and each action the
loop takes per descriptor: registering a message or close listener
(synchronous `socket.on` calls), invoking an on-connect handler (which reads
`methodMap` at that moment), or pushing a response descriptor into
`methodMap`. -/

/-- One observable step of the `'connection'` handler body. -/
inductive SetupAction where
  | yieldControl
  | registerMessage (event : String) (prop : String)
  | registerDisconnect (prop : String)
  | invokeConnect (prop : String) (responseEventsSeen : List WSEventInfo)
  | storeResponse (prop : String) (t : WSEventTypeEnum)
deriving DecidableEq

/-- `methodMap[p] = methodMap[p] || { responseEvents: [] }`: create the
entry with an empty response list when absent. -/
def ensureEntry (m : List (String × List WSEventInfo)) (p : String) :
    List (String × List WSEventInfo) :=
  match lookupMethod m p with
  | some _ => m
  | none => m ++ [(p, [])]

/-- `methodMap[p].responseEvents.push(info)`. -/
def pushResponse (m : List (String × List WSEventInfo)) (p : String)
    (info : WSEventInfo) : List (String × List WSEventInfo) :=
  m.map fun kv => if kv.1 = p then (kv.1, kv.2 ++ [info]) else kv

/-- The response events currently stored for method `p`. -/
def respList (m : List (String × List WSEventInfo)) (p : String) :
    List WSEventInfo :=
  (lookupMethod m p).getD []

/-- The descriptor loop of `addNamespace` (`for (const wsEventInfo of
wsEventInfos)`), producing the trace of setup actions and the final
`methodMap`.  Each iteration first ensures the `methodMap` entry, then
awaits `socket.requestContext.getAsync(target)` (a yield); the
`ON_CONNECTION` branch awaits the composed pipeline (a further yield) and
then calls `bindSocketResponse` against `methodMap` as it stands at that
iteration — recorded as the `responseEventsSeen` snapshot; the `ON_MESSAGE`
and `ON_DISCONNECTION` branches register listeners synchronously; any other
descriptor is pushed into `methodMap`. -/
def processEventInfos :
    List WSEventInfo → List (String × List WSEventInfo) →
    List SetupAction × List (String × List WSEventInfo)
  | [], m => ([], m)
  | info :: rest, m =>
    let m1 := ensureEntry m info.propertyName
    let step : List SetupAction × List (String × List WSEventInfo) :=
      match info.eventType with
      | .ON_CONNECTION =>
          ([.yieldControl,
            .invokeConnect info.propertyName (respList m1 info.propertyName)],
           m1)
      | .ON_MESSAGE =>
          ([.registerMessage info.messageEventName info.propertyName], m1)
      | .ON_DISCONNECTION =>
          ([.registerDisconnect info.propertyName], m1)
      | t => ([.storeResponse info.propertyName t],
              pushResponse m1 info.propertyName info)
    let tail := processEventInfos rest step.2
    (SetupAction.yieldControl :: step.1 ++ tail.1, tail.2)

/-- The whole `'connection'` handler after the synchronous prologue: it
awaits `this.middlewareService.compose(...)` and then `connectFn(socket)`
(two yields) before the descriptor loop runs. -/
def connectionSetupTrace (infos : List WSEventInfo) : List SetupAction :=
  .yieldControl :: .yieldControl :: (processEventInfos infos []).1

/-- The `methodMap` left for the message and close listeners, which fire
only after the loop has completed. -/
def finalMethodMap (infos : List WSEventInfo) :
    List (String × List WSEventInfo) :=
  (processEventInfos infos []).2

/-- Is this descriptor a response-policy descriptor for method `p`? -/
def isResponseFor (p : String) (info : WSEventInfo) : Bool :=
  (info.eventType = WSEventTypeEnum.EMIT
    || info.eventType = WSEventTypeEnum.BROADCAST)
    && info.propertyName = p

/-- The event kind and method name an action processes, when it is the
action of a descriptor (yields are dropped). -/
def actionLabel : SetupAction → Option (WSEventTypeEnum × String)
  | .yieldControl => none
  | .registerMessage _ p => some (.ON_MESSAGE, p)
  | .registerDisconnect p => some (.ON_DISCONNECTION, p)
  | .invokeConnect p _ => some (.ON_CONNECTION, p)
  | .storeResponse p t => some (t, p)

/-- Does this action register an inbound-event listener on the socket? -/
def isRegistration : SetupAction → Bool
  | .registerMessage _ _ => true
  | .registerDisconnect _ => true
  | _ => false

/-- Is this action a yield of control back to the event loop? -/
def isYield : SetupAction → Bool
  | .yieldControl => true
  | _ => false

/-- The claimed property "all listeners are registered before control is
yielded back to the transport", as a predicate on a trace: once the first
yield has happened, no listener registration follows. -/
def registeredBeforeYield (trace : List SetupAction) : Bool :=
  (trace.dropWhile fun a => !(isYield a)).all fun a => !(isRegistration a)

/-! ## Theorems -/

/-- C1: with a registered upgrade-auth predicate, a falsy result or a
raised failure both destroy the socket and never emit `'connection'`; the
two failure paths present the same caller-visible outcome; with no
predicate registered the upgrade proceeds unconditionally to
`handleUpgrade`, emitting `'connection'` and destroying nothing. -/
theorem upgrade_gate_rejection (v : JSValue) (hv : truthy v = false) :
    UpgradeEffect.socketDestroy ∈ upgradeListener (some (.resolves v))
    ∧ UpgradeEffect.connectionEmit ∉ upgradeListener (some (.resolves v))
    ∧ UpgradeEffect.socketDestroy ∈ upgradeListener (some .throws)
    ∧ UpgradeEffect.connectionEmit ∉ upgradeListener (some .throws)
    ∧ callerView (upgradeListener (some (.resolves v)))
        = callerView (upgradeListener (some .throws))
    ∧ upgradeListener none = [UpgradeEffect.connectionEmit]
    ∧ UpgradeEffect.socketDestroy ∉ upgradeListener none := by
  have h1 : upgradeListener (some (.resolves v))
      = [.logWarn, .socketDestroy] := by
    simp [upgradeListener, hv]
  rw [h1]
  refine ⟨?_, ?_, ?_, ?_, ?_, ?_, ?_⟩ <;> simp [upgradeListener, callerView]

/-- Witness for C1 at the concrete falsy value `false`. -/
theorem upgrade_gate_rejection_witness :
    truthy (JSValue.boolean false) = false
    ∧ (UpgradeEffect.socketDestroy
          ∈ upgradeListener (some (.resolves (.boolean false)))
        ∧ UpgradeEffect.connectionEmit
            ∉ upgradeListener (some (.resolves (.boolean false)))
        ∧ UpgradeEffect.socketDestroy ∈ upgradeListener (some .throws)
        ∧ UpgradeEffect.connectionEmit ∉ upgradeListener (some .throws)
        ∧ callerView (upgradeListener (some (.resolves (.boolean false))))
            = callerView (upgradeListener (some .throws))
        ∧ upgradeListener none = [UpgradeEffect.connectionEmit]
        ∧ UpgradeEffect.socketDestroy ∉ upgradeListener none) :=
  ⟨by decide, upgrade_gate_rejection (.boolean false) (by decide)⟩

/-- C10: a JavaScript-falsy handler result — `undefined`, `null`, `false`,
`0`, `NaN` or the empty string — makes `bindSocketResponse` return
immediately with no send to any connection. -/
theorem falsy_result_no_send (r : JSValue) (h : truthy r = false) :
    (∀ originId propertyName methodMap clients,
      bindSocketResponse r originId propertyName methodMap clients = [])
    ∧ truthy JSValue.undefined = false
    ∧ truthy JSValue.jsNull = false
    ∧ truthy (JSValue.boolean false) = false
    ∧ truthy (JSValue.number 0) = false
    ∧ truthy JSValue.nan = false
    ∧ truthy (JSValue.jsString "") = false := by
  refine ⟨fun o p m cs => ?_, by decide, by decide, by decide, by decide,
    by decide, by decide⟩
  simp [bindSocketResponse, h]

/-- Witness for C10 at the concrete falsy value `0`. -/
theorem falsy_result_no_send_witness :
    truthy (JSValue.number 0) = false
    ∧ bindSocketResponse (JSValue.number 0) 0 "m" [] [] = [] :=
  ⟨by decide, (falsy_result_no_send (JSValue.number 0) (by decide)).1 0 "m" [] []⟩

/-- C5: with zero response-policy descriptors — whether the method has no
`methodMap` entry at all or an entry with an empty response-event list — a
truthy result is sent to the originating connection exactly once. -/
theorem default_emit_policy (r : JSValue) (hr : truthy r = true)
    (originId : Nat) (p : String)
    (mapAbsent mapEmpty : List (String × List WSEventInfo))
    (clients : List Client)
    (hA : lookupMethod mapAbsent p = none)
    (hE : lookupMethod mapEmpty p = some []) :
    bindSocketResponse r originId p mapAbsent clients
        = [.send originId (formatResult r)]
    ∧ bindSocketResponse r originId p mapEmpty clients
        = [.send originId (formatResult r)] := by
  constructor <;> simp [bindSocketResponse, hr, hA, hE, responseSends]

/-- Witness for C5 with a truthy string result, an absent entry and an
empty entry. -/
theorem default_emit_policy_witness :
    truthy (JSValue.jsString "hi") = true
    ∧ lookupMethod [] "m" = none
    ∧ lookupMethod [("m", [])] "m" = some []
    ∧ (bindSocketResponse (JSValue.jsString "hi") 0 "m" [] []
          = [.send 0 (formatResult (.jsString "hi"))]
        ∧ bindSocketResponse (JSValue.jsString "hi") 0 "m" [("m", [])] []
            = [.send 0 (formatResult (.jsString "hi"))]) :=
  ⟨by decide, rfl, by simp [lookupMethod],
    default_emit_policy (.jsString "hi") (by decide) 0 "m" [] [("m", [])] []
      rfl (by simp [lookupMethod])⟩

/-- The broadcast loop sends to exactly the clients in the `OPEN` state, in
order, once each. -/
theorem broadcastSends_eq_filter_map (clients : List Client)
    (payload : JSValue) :
    broadcastSends clients payload
      = (clients.filter fun c => c.readyState = .OPEN).map
          fun c => .send c.id payload := by
  induction clients with
  | nil => rfl
  | cons c cs ih =>
      by_cases h : c.readyState = ReadyState.OPEN <;>
        simp [broadcastSends, h, List.filter_cons] at ih ⊢ <;>
        exact ih

/-- C4: with a `methodMap` entry holding an `emit` descriptor followed by a
`broadcast` descriptor, a truthy result produces one send to the
originating connection followed by one send to every `OPEN` client (clients
not in the `OPEN` state are skipped); in particular the originator, when it
is among the open clients, also receives the payload a second time through
the broadcast. -/
theorem emit_and_broadcast_both_fire (r : JSValue) (hr : truthy r = true)
    (originId : Nat) (p : String) (emitInfo broadcastInfo : WSEventInfo)
    (he : emitInfo.eventType = .EMIT)
    (hb : broadcastInfo.eventType = .BROADCAST)
    (methodMap : List (String × List WSEventInfo)) (clients : List Client)
    (hm : lookupMethod methodMap p = some [emitInfo, broadcastInfo]) :
    bindSocketResponse r originId p methodMap clients
      = Effect.send originId (formatResult r)
          :: (clients.filter fun c => c.readyState = .OPEN).map
               (fun c => .send c.id (formatResult r))
    ∧ (∀ c ∈ clients, c.readyState = ReadyState.OPEN →
        Effect.send c.id (formatResult r)
          ∈ List.drop 1 (bindSocketResponse r originId p methodMap clients)) := by
  have h1 : bindSocketResponse r originId p methodMap clients
      = Effect.send originId (formatResult r)
          :: (clients.filter fun c => c.readyState = .OPEN).map
               (fun c => .send c.id (formatResult r)) := by
    simp [bindSocketResponse, hr, hm, responseSends, he, hb,
      broadcastSends_eq_filter_map]
  refine ⟨h1, fun c hc hopen => ?_⟩
  rw [h1]
  simp only [List.drop_one, List.tail_cons]
  exact List.mem_map_of_mem _ (List.mem_filter.2 ⟨hc, by simp [hopen]⟩)

/-- Witness for C4: originator id 0 is open, client 1 is open, client 2 is
closed; the originator appears twice in the produced sends. -/
theorem emit_and_broadcast_both_fire_witness :
    truthy (JSValue.jsString "x") = true
    ∧ bindSocketResponse (JSValue.jsString "x") 0 "m"
        [("m", [⟨.EMIT, "m", ""⟩, ⟨.BROADCAST, "m", ""⟩])]
        [⟨0, .OPEN⟩, ⟨1, .OPEN⟩, ⟨2, .CLOSED⟩]
      = [.send 0 (formatResult (.jsString "x")),
         .send 0 (formatResult (.jsString "x")),
         .send 1 (formatResult (.jsString "x"))] := by
  have h := (emit_and_broadcast_both_fire (.jsString "x") (by decide) 0 "m"
    ⟨.EMIT, "m", ""⟩ ⟨.BROADCAST, "m", ""⟩ rfl rfl
    [("m", [⟨.EMIT, "m", ""⟩, ⟨.BROADCAST, "m", ""⟩])]
    [⟨0, .OPEN⟩, ⟨1, .OPEN⟩, ⟨2, .CLOSED⟩] (by simp [lookupMethod])).1
  exact ⟨by decide, by rw [h]; rfl⟩

/-- C6: when the final positional argument of an inbound message event is a
callable, the handler result is passed to it raw and `bindSocketResponse`
is never reached: the dispatch performs the ack call and no send to any
connection, whatever the declared response policy. -/
theorem ack_callback_bypasses_binder (args : List JSArg) (cb : Nat)
    (h : args.getLast? = some (.callable cb)) (r : JSValue) (originId : Nat)
    (p : String) (methodMap : List (String × List WSEventInfo))
    (clients : List Client) :
    onMessageDispatch (.ok r) args originId p methodMap clients
        = [.ackCall cb r]
    ∧ (∀ t payload, Effect.send t payload
        ∉ onMessageDispatch (.ok r) args originId p methodMap clients) := by
  have h1 : onMessageDispatch (.ok r) args originId p methodMap clients
      = [.ackCall cb r] := by
    simp [onMessageDispatch, h]
  exact ⟨h1, fun t payload => by simp [h1]⟩

/-- Witness for C6: a single callable argument and the result
`\x7b ok: true \x7d`, declared `emit` policy notwithstanding. -/
theorem ack_callback_bypasses_binder_witness :
    ([JSArg.callable 7] : List JSArg).getLast? = some (.callable 7)
    ∧ onMessageDispatch (.ok (.obj [("ok", "true")])) [JSArg.callable 7] 0 "m"
        [("m", [⟨.EMIT, "m", ""⟩])] [⟨0, .OPEN⟩]
      = [.ackCall 7 (.obj [("ok", "true")])] :=
  ⟨rfl, (ack_callback_bypasses_binder [JSArg.callable 7] 7 rfl
    (.obj [("ok", "true")]) 0 "m" [("m", [⟨.EMIT, "m", ""⟩])] [⟨0, .OPEN⟩]).1⟩

/-- C7: when the authorization guard reports failure for an on-connect
descriptor, a `MidwayInvokeForbiddenError` is raised in place of the
handler call, the failure is caught and logged inside connection setup, and
the socket is neither terminated nor sent anything — the connection stays
open. -/
theorem guard_failure_forbidden_and_logged (handlerOutcome : Outcome)
    (originId : Nat) (p : String)
    (methodMap : List (String × List WSEventInfo)) (clients : List Client) :
    connectInvoke false handlerOutcome = (.forbidden, false)
    ∧ (onConnectDispatch false handlerOutcome originId p methodMap
        clients).effects = [.logError]
    ∧ (onConnectDispatch false handlerOutcome originId p methodMap
        clients).handlerCalled = false
    ∧ (∀ t, Effect.terminate t
        ∉ (onConnectDispatch false handlerOutcome originId p methodMap
            clients).effects)
    ∧ (∀ t payload, Effect.send t payload
        ∉ (onConnectDispatch false handlerOutcome originId p methodMap
            clients).effects) := by
  refine ⟨rfl, ?_, ?_, ?_, ?_⟩ <;>
    simp [onConnectDispatch, connectInvoke]

/-- C3: a failure raised by handler code or its middleware during any of
the three dispatch kinds (on-connect, on-message, on-disconnect) is caught
at the dispatch boundary and only logged: no send, no socket termination,
no listener removal — so a registered message listener stays active for
subsequent events. -/
theorem handler_failure_caught_and_isolated (args : List JSArg)
    (originId : Nat) (p : String)
    (methodMap : List (String × List WSEventInfo)) (clients : List Client)
    (isPassed : Bool) :
    onMessageDispatch .thrown args originId p methodMap clients = [.logError]
    ∧ onDisconnectDispatch .thrown originId p methodMap clients = [.logError]
    ∧ (onConnectDispatch isPassed .thrown originId p methodMap
        clients).effects = [.logError]
    ∧ (∀ t, Effect.terminate t
        ∉ onMessageDispatch .thrown args originId p methodMap clients)
    ∧ (∀ e, Effect.removeListener e
        ∉ onMessageDispatch .thrown args originId p methodMap clients)
    ∧ (∀ t, Effect.terminate t
        ∉ onDisconnectDispatch .thrown originId p methodMap clients)
    ∧ (∀ t, Effect.terminate t
        ∉ (onConnectDispatch isPassed .thrown originId p methodMap
            clients).effects) := by
  refine ⟨rfl, rfl, ?_, ?_, ?_, ?_, ?_⟩ <;>
    cases isPassed <;>
    simp [onMessageDispatch, onDisconnectDispatch, onConnectDispatch,
      connectInvoke]

/-- A terminated socket is left untouched by further ticks and pongs. -/
theorem runHeartbeat_terminated_absorb (answers : List Bool) (s : HBConn)
    (h : s.terminated = true) : runHeartbeat answers s = s := by
  induction answers generalizing s with
  | nil => rfl
  | cons a rest ih =>
      have hp : (if a then pongListener s else s) = s := by
        cases a <;> simp [pongListener, h]
      simp [runHeartbeat, hp, heartbeatTick, h, ih s h]

/-- A socket observed right after a tick — `isAlive` cleared, not yet
terminated — ends terminated exactly when some later inter-tick interval
passes without a pong. -/
theorem runHeartbeat_dead_start (answers : List Bool) (p : Nat) :
    (runHeartbeat answers ⟨false, false, p⟩).terminated = true
      ↔ false ∈ answers := by
  induction answers generalizing p with
  | nil => simp [runHeartbeat]
  | cons a rest ih =>
      cases a with
      | true =>
          have hstep : heartbeatTick (pongListener ⟨false, false, p⟩)
              = ⟨false, false, p + 1⟩ := by
            simp [pongListener, heartbeatTick]
          simp [runHeartbeat, hstep, ih]
      | false =>
          have hstep : heartbeatTick ⟨false, false, p⟩
              = ⟨false, true, p⟩ := by
            simp [heartbeatTick]
          simp [runHeartbeat, hstep,
            runHeartbeat_terminated_absorb rest ⟨false, true, p⟩ rfl]

/-- C2: under the heartbeat monitor a connection is terminated exactly when
two consecutive ticks pass with no pong between them (`false` in the
schedule after the first tick).  A connection whose `isAlive` flag is reset
by a pong before every tick is never terminated; a connection that never
answers is suspect after the first tick (`isAlive` cleared, exactly one
ping sent, not terminated) and is terminated at the second tick with no
further ping. -/
theorem heartbeat_two_interval_termination (answers : List Bool) :
    ((runHeartbeat answers initialConn).terminated = true
      ↔ false ∈ answers.drop 1)
    ∧ (∀ n : Nat,
        (runHeartbeat (List.replicate n true) initialConn).terminated = false)
    ∧ runHeartbeat [false] initialConn = ⟨false, false, 1⟩
    ∧ (runHeartbeat [false, false] initialConn).terminated = true
    ∧ (runHeartbeat [false, false] initialConn).pings = 1 := by
  have hfirst : ∀ a : Bool,
      heartbeatTick (if a then pongListener initialConn else initialConn)
        = ⟨false, false, 1⟩ := by
    intro a
    cases a <;> simp [initialConn, pongListener, heartbeatTick]
  refine ⟨?_, ?_, by decide, by decide, by decide⟩
  · cases answers with
    | nil => simp [runHeartbeat, initialConn]
    | cons a rest =>
        simp only [runHeartbeat, hfirst a, List.drop_succ_cons, List.drop_zero]
        exact runHeartbeat_dead_start rest 1
  · intro n
    cases n with
    | zero => rfl
    | succ k =>
        rw [List.replicate_succ]
        have h1 : runHeartbeat (true :: List.replicate k true) initialConn
            = runHeartbeat (List.replicate k true) ⟨false, false, 1⟩ := rfl
        rw [h1, ← Bool.not_eq_true, runHeartbeat_dead_start]
        simp

/-- Appending entries does not shadow an existing key. -/
theorem lookupMethod_append_of_some (m1 m2 : List (String × List WSEventInfo))
    (p : String) (v : List WSEventInfo) (h : lookupMethod m1 p = some v) :
    lookupMethod (m1 ++ m2) p = some v := by
  induction m1 with
  | nil => simp [lookupMethod] at h
  | cons kv rest ih =>
      obtain ⟨k, w⟩ := kv
      by_cases hk : k = p
      · simp [lookupMethod, hk] at h ⊢
        exact h
      · simp [lookupMethod, hk] at h ⊢
        exact ih h

/-- Lookup falls through appended entries when the key is absent. -/
theorem lookupMethod_append_of_none (m1 m2 : List (String × List WSEventInfo))
    (p : String) (h : lookupMethod m1 p = none) :
    lookupMethod (m1 ++ m2) p = lookupMethod m2 p := by
  induction m1 with
  | nil => rfl
  | cons kv rest ih =>
      obtain ⟨k, w⟩ := kv
      by_cases hk : k = p
      · simp [lookupMethod, hk] at h
      · simp [lookupMethod, hk] at h ⊢
        exact ih h

/-- After `ensureEntry`, the key maps to its previously stored response
list (empty when the entry was just created). -/
theorem lookupMethod_ensureEntry_self (m : List (String × List WSEventInfo))
    (q : String) :
    lookupMethod (ensureEntry m q) q = some (respList m q) := by
  unfold ensureEntry respList
  cases h : lookupMethod m q with
  | some v => simp [h]
  | none =>
      rw [lookupMethod_append_of_none m [(q, [])] q h]
      simp [lookupMethod, h]

/-- `ensureEntry` does not touch other keys. -/
theorem lookupMethod_ensureEntry_ne (m : List (String × List WSEventInfo))
    (q p : String) (h : p ≠ q) :
    lookupMethod (ensureEntry m q) p = lookupMethod m p := by
  unfold ensureEntry
  cases hq : lookupMethod m q with
  | some v => rfl
  | none =>
      cases hp : lookupMethod m p with
      | some v => exact lookupMethod_append_of_some m [(q, [])] p v hp
      | none =>
          rw [lookupMethod_append_of_none m [(q, [])] p hp]
          simp [lookupMethod, Ne.symm h]

/-- `pushResponse` appends exactly to its key. -/
theorem lookupMethod_pushResponse_self (m : List (String × List WSEventInfo))
    (q : String) (info : WSEventInfo) :
    lookupMethod (pushResponse m q info) q
      = (lookupMethod m q).map fun v => v ++ [info] := by
  induction m with
  | nil => rfl
  | cons kv rest ih =>
      obtain ⟨k, v⟩ := kv
      simp only [pushResponse, List.map_cons] at ih ⊢
      by_cases hk : k = q
      · subst hk
        rw [if_pos rfl]
        simp [lookupMethod, ih]
      · rw [if_neg hk]
        simp [lookupMethod, hk, ih]

/-- `pushResponse` does not touch other keys. -/
theorem lookupMethod_pushResponse_ne (m : List (String × List WSEventInfo))
    (q p : String) (info : WSEventInfo) (h : p ≠ q) :
    lookupMethod (pushResponse m q info) p = lookupMethod m p := by
  induction m with
  | nil => rfl
  | cons kv rest ih =>
      obtain ⟨k, v⟩ := kv
      simp only [pushResponse, List.map_cons] at ih ⊢
      by_cases hkq : k = q
      · subst hkq
        rw [if_pos rfl]
        simp [lookupMethod, Ne.symm h, ih]
      · rw [if_neg hkq]
        by_cases hkp : k = p <;> simp [lookupMethod, hkp, ih]

/-- Stored responses are unchanged by `ensureEntry`. -/
theorem respList_ensureEntry (m : List (String × List WSEventInfo))
    (q p : String) :
    respList (ensureEntry m q) p = respList m p := by
  by_cases hpq : p = q
  · subst hpq
    unfold respList
    rw [lookupMethod_ensureEntry_self]
    rfl
  · unfold respList
    rw [lookupMethod_ensureEntry_ne m q p hpq]

/-- Pushing a response after ensuring the entry appends it to the stored
list for that method. -/
theorem respList_push_ensure_self (m : List (String × List WSEventInfo))
    (p : String) (info : WSEventInfo) :
    respList (pushResponse (ensureEntry m p) p info) p
      = respList m p ++ [info] := by
  unfold respList
  rw [lookupMethod_pushResponse_self, lookupMethod_ensureEntry_self]
  rfl

/-- Pushing a response for one method leaves other methods untouched. -/
theorem respList_push_ensure_ne (m : List (String × List WSEventInfo))
    (q p : String) (info : WSEventInfo) (h : p ≠ q) :
    respList (pushResponse (ensureEntry m q) q info) p = respList m p := by
  unfold respList
  rw [lookupMethod_pushResponse_ne _ _ _ _ h,
    lookupMethod_ensureEntry_ne m q p h]

/-- Invariant of the descriptor loop: after processing a descriptor list,
the responses stored for a method are whatever was already stored plus, in
declaration order, exactly the response-policy descriptors of that method
in the list. -/
theorem respList_processEventInfos (infos : List WSEventInfo)
    (m : List (String × List WSEventInfo)) (p : String) :
    respList (processEventInfos infos m).2 p
      = respList m p ++ infos.filter (isResponseFor p) := by
  induction infos generalizing m with
  | nil => simp [processEventInfos]
  | cons info rest ih =>
      cases ht : info.eventType with
      | ON_CONNECTION =>
          have h2 : (processEventInfos (info :: rest) m).2
              = (processEventInfos rest
                  (ensureEntry m info.propertyName)).2 := by
            simp [processEventInfos, ht]
          have hf : isResponseFor p info = false := by
            simp [isResponseFor, ht]
          rw [h2, ih, respList_ensureEntry]
          simp [List.filter_cons, hf]
      | ON_MESSAGE =>
          have h2 : (processEventInfos (info :: rest) m).2
              = (processEventInfos rest
                  (ensureEntry m info.propertyName)).2 := by
            simp [processEventInfos, ht]
          have hf : isResponseFor p info = false := by
            simp [isResponseFor, ht]
          rw [h2, ih, respList_ensureEntry]
          simp [List.filter_cons, hf]
      | ON_DISCONNECTION =>
          have h2 : (processEventInfos (info :: rest) m).2
              = (processEventInfos rest
                  (ensureEntry m info.propertyName)).2 := by
            simp [processEventInfos, ht]
          have hf : isResponseFor p info = false := by
            simp [isResponseFor, ht]
          rw [h2, ih, respList_ensureEntry]
          simp [List.filter_cons, hf]
      | EMIT =>
          have h2 : (processEventInfos (info :: rest) m).2
              = (processEventInfos rest
                  (pushResponse (ensureEntry m info.propertyName)
                    info.propertyName info)).2 := by
            simp [processEventInfos, ht]
          rw [h2, ih]
          by_cases hp : p = info.propertyName
          · subst hp
            rw [respList_push_ensure_self]
            have hf : isResponseFor info.propertyName info = true := by
              simp [isResponseFor, ht]
            simp [List.filter_cons, hf, List.append_assoc]
          · rw [respList_push_ensure_ne _ _ _ _ hp]
            have hf : isResponseFor p info = false := by
              simp [isResponseFor, ht, Ne.symm hp]
            simp [List.filter_cons, hf]
      | BROADCAST =>
          have h2 : (processEventInfos (info :: rest) m).2
              = (processEventInfos rest
                  (pushResponse (ensureEntry m info.propertyName)
                    info.propertyName info)).2 := by
            simp [processEventInfos, ht]
          rw [h2, ih]
          by_cases hp : p = info.propertyName
          · subst hp
            rw [respList_push_ensure_self]
            have hf : isResponseFor info.propertyName info = true := by
              simp [isResponseFor, ht]
            simp [List.filter_cons, hf, List.append_assoc]
          · rw [respList_push_ensure_ne _ _ _ _ hp]
            have hf : isResponseFor p info = false := by
              simp [isResponseFor, ht, Ne.symm hp]
            simp [List.filter_cons, hf]

/-- The final `methodMap` of the descriptor loop splits over list
concatenation. -/
theorem processEventInfos_append_map (xs ys : List WSEventInfo)
    (m : List (String × List WSEventInfo)) :
    (processEventInfos (xs ++ ys) m).2
      = (processEventInfos ys (processEventInfos xs m).2).2 := by
  induction xs generalizing m with
  | nil => rfl
  | cons info rest ih =>
      cases ht : info.eventType <;>
        simp [processEventInfos, ht, ih]

/-- The setup trace of the descriptor loop splits over list concatenation,
the second half running against the `methodMap` left by the first. -/
theorem processEventInfos_append_trace (xs ys : List WSEventInfo)
    (m : List (String × List WSEventInfo)) :
    (processEventInfos (xs ++ ys) m).1
      = (processEventInfos xs m).1
        ++ (processEventInfos ys (processEventInfos xs m).2).1 := by
  induction xs generalizing m with
  | nil => rfl
  | cons info rest ih =>
      cases ht : info.eventType <;>
        simp [processEventInfos, ht, ih]

/-- The per-descriptor actions of the setup trace, read off in trace order,
are exactly the declared descriptors in declaration order. -/
theorem trace_labels_declaration_order (infos : List WSEventInfo)
    (m : List (String × List WSEventInfo)) :
    (processEventInfos infos m).1.filterMap actionLabel
      = infos.map fun i => (i.eventType, i.propertyName) := by
  induction infos generalizing m with
  | nil => rfl
  | cons info rest ih =>
      cases ht : info.eventType <;>
        simp [processEventInfos, ht, actionLabel, ih]

/-- The trace of a non-empty descriptor list starts with the yield for
`await socket.requestContext.getAsync(target)`, then the head descriptor's
actions, then the tail's trace against some updated `methodMap`. -/
theorem processEventInfos_cons_shape (info : WSEventInfo)
    (rest : List WSEventInfo) (m : List (String × List WSEventInfo)) :
    ∃ s m2, (processEventInfos (info :: rest) m).1
      = SetupAction.yieldControl :: (s ++ (processEventInfos rest m2).1) := by
  cases ht : info.eventType with
  | ON_CONNECTION =>
      refine ⟨[.yieldControl, .invokeConnect info.propertyName
          (respList (ensureEntry m info.propertyName) info.propertyName)],
        ensureEntry m info.propertyName, ?_⟩
      simp [processEventInfos, ht]
  | ON_MESSAGE =>
      refine ⟨[.registerMessage info.messageEventName info.propertyName],
        ensureEntry m info.propertyName, ?_⟩
      simp [processEventInfos, ht]
  | ON_DISCONNECTION =>
      refine ⟨[.registerDisconnect info.propertyName],
        ensureEntry m info.propertyName, ?_⟩
      simp [processEventInfos, ht]
  | EMIT =>
      refine ⟨[.storeResponse info.propertyName .EMIT],
        pushResponse (ensureEntry m info.propertyName) info.propertyName info,
        ?_⟩
      simp [processEventInfos, ht]
  | BROADCAST =>
      refine ⟨[.storeResponse info.propertyName .BROADCAST],
        pushResponse (ensureEntry m info.propertyName) info.propertyName info,
        ?_⟩
      simp [processEventInfos, ht]

/-- Every declared message or disconnect descriptor contributes a listener
registration to the setup trace. -/
theorem registration_in_trace (infos : List WSEventInfo)
    (m : List (String × List WSEventInfo)) (info : WSEventInfo)
    (hmem : info ∈ infos)
    (ht : info.eventType = WSEventTypeEnum.ON_MESSAGE
      ∨ info.eventType = WSEventTypeEnum.ON_DISCONNECTION) :
    ∃ a ∈ (processEventInfos infos m).1, isRegistration a = true := by
  induction infos generalizing m with
  | nil => cases hmem
  | cons hd rest ih =>
      rcases List.mem_cons.1 hmem with heq | hrest
      · subst heq
        rcases ht with h | h
        · exact ⟨.registerMessage info.messageEventName info.propertyName,
            by simp [processEventInfos, h], rfl⟩
        · exact ⟨.registerDisconnect info.propertyName,
            by simp [processEventInfos, h], rfl⟩
      · obtain ⟨s, m2, hshape⟩ := processEventInfos_cons_shape hd rest m
        obtain ⟨a, ha, hreg⟩ := ih m2 hrest
        exact ⟨a, by rw [hshape]; simp [ha], hreg⟩

/-- C8 counterexample: for a handler group declaring a single on-message
descriptor, the connection setup yields control back to the event loop
(awaiting middleware composition, the connection middleware and the
controller resolution) before the message listener is registered, so the
claimed "all listeners registered before control is yielded" property is
false on this trace. -/
theorem listener_registration_after_yield_cex :
    registeredBeforeYield
      (connectionSetupTrace [⟨.ON_MESSAGE, "chat", "message"⟩]) = false := by
  rfl

/-- C8 (amended): descriptors are processed in declaration order — the
per-descriptor actions of the setup trace list the declared descriptors in
order — but whenever the group declares an on-message or on-disconnect
descriptor, control has already been yielded back to the transport before
that listener is registered, so an inbound event delivered in that window
can be missed. -/
theorem descriptor_order_but_yield_precedes_registration
    (infos : List WSEventInfo) :
    ((processEventInfos infos []).1.filterMap actionLabel
      = infos.map fun i => (i.eventType, i.propertyName))
    ∧ (∀ info ∈ infos,
        (info.eventType = WSEventTypeEnum.ON_MESSAGE
          ∨ info.eventType = WSEventTypeEnum.ON_DISCONNECTION) →
        registeredBeforeYield (connectionSetupTrace infos) = false) := by
  refine ⟨trace_labels_declaration_order infos [], fun info hmem ht => ?_⟩
  obtain ⟨a, ha, hreg⟩ := registration_in_trace infos [] info hmem ht
  rw [← Bool.not_eq_true]
  intro hall
  have hdrop : (connectionSetupTrace infos).dropWhile
      (fun a => !(isYield a)) = connectionSetupTrace infos := by
    rw [connectionSetupTrace, List.dropWhile_cons]
    simp [isYield]
  rw [registeredBeforeYield, hdrop, List.all_eq_true] at hall
  have hmem2 : a ∈ connectionSetupTrace infos := by
    rw [connectionSetupTrace]
    simp [ha]
  have := hall a hmem2
  rw [hreg] at this
  simp at this

/-- Witness for the amended C8 at a concrete two-descriptor group. -/
theorem descriptor_order_but_yield_precedes_registration_witness :
    ((processEventInfos
        [⟨.ON_MESSAGE, "chat", "message"⟩, ⟨.EMIT, "chat", ""⟩] []).1.filterMap
          actionLabel
      = [(WSEventTypeEnum.ON_MESSAGE, "chat"), (WSEventTypeEnum.EMIT, "chat")])
    ∧ registeredBeforeYield
        (connectionSetupTrace
          [⟨.ON_MESSAGE, "chat", "message"⟩, ⟨.EMIT, "chat", ""⟩]) = false :=
  ⟨((descriptor_order_but_yield_precedes_registration
      [⟨.ON_MESSAGE, "chat", "message"⟩, ⟨.EMIT, "chat", ""⟩]).1).trans rfl,
    (descriptor_order_but_yield_precedes_registration
      [⟨.ON_MESSAGE, "chat", "message"⟩, ⟨.EMIT, "chat", ""⟩]).2
      ⟨.ON_MESSAGE, "chat", "message"⟩ (by simp) (Or.inl rfl)⟩

/-- C9: for an on-connect descriptor at a given position, the response
binding of its invocation consults `methodMap` as of that iteration, whose
entry for the method holds exactly the response-policy descriptors declared
before the on-connect descriptor; and when all of them are declared after
it, the entry is empty and a truthy result falls back to the default single
send to the originating connection. -/
theorem connect_snapshot_prefix_responses (pre post : List WSEventInfo)
    (info : WSEventInfo) (hc : info.eventType = .ON_CONNECTION) :
    ((processEventInfos (pre ++ info :: post) []).1
      = (processEventInfos pre []).1
        ++ SetupAction.yieldControl
          :: SetupAction.yieldControl
          :: SetupAction.invokeConnect info.propertyName
               (pre.filter (isResponseFor info.propertyName))
          :: (processEventInfos post
               (ensureEntry (processEventInfos pre []).2
                 info.propertyName)).1)
    ∧ lookupMethod
        (ensureEntry (processEventInfos pre []).2 info.propertyName)
        info.propertyName
      = some (pre.filter (isResponseFor info.propertyName))
    ∧ (pre.filter (isResponseFor info.propertyName) = [] →
        ∀ (r : JSValue) (originId : Nat) (clients : List Client),
          truthy r = true →
          bindSocketResponse r originId info.propertyName
            (ensureEntry (processEventInfos pre []).2 info.propertyName)
            clients
            = [.send originId (formatResult r)]) := by
  have hresp : respList (processEventInfos pre []).2 info.propertyName
      = pre.filter (isResponseFor info.propertyName) := by
    rw [respList_processEventInfos]
    rfl
  have hlook : lookupMethod
      (ensureEntry (processEventInfos pre []).2 info.propertyName)
      info.propertyName
      = some (pre.filter (isResponseFor info.propertyName)) := by
    rw [lookupMethod_ensureEntry_self, hresp]
  refine ⟨?_, hlook, fun hempty r originId clients hr => ?_⟩
  · rw [processEventInfos_append_trace pre (info :: post) []]
    have hstep : (processEventInfos (info :: post)
        (processEventInfos pre []).2).1
        = SetupAction.yieldControl
          :: SetupAction.yieldControl
          :: SetupAction.invokeConnect info.propertyName
               (pre.filter (isResponseFor info.propertyName))
          :: (processEventInfos post
               (ensureEntry (processEventInfos pre []).2
                 info.propertyName)).1 := by
      simp [processEventInfos, hc, respList_ensureEntry, hresp]
    rw [hstep]
  · rw [hempty] at hlook
    simp [bindSocketResponse, hr, hlook, responseSends]

/-- Witness for C9: the only response descriptor for method "m" is
declared after the on-connect descriptor, so the on-connect result falls
back to the default single send. -/
theorem connect_snapshot_prefix_responses_witness :
    (⟨WSEventTypeEnum.ON_CONNECTION, "m", ""⟩ : WSEventInfo).eventType
        = WSEventTypeEnum.ON_CONNECTION
    ∧ ([⟨.EMIT, "other", ""⟩] : List WSEventInfo).filter (isResponseFor "m")
        = []
    ∧ truthy (JSValue.boolean true) = true
    ∧ bindSocketResponse (.boolean true) 0 "m"
        (ensureEntry (processEventInfos
          ([⟨.EMIT, "other", ""⟩] : List WSEventInfo) []).2 "m") []
      = [.send 0 (formatResult (.boolean true))] :=
  ⟨rfl, by decide, rfl,
    (connect_snapshot_prefix_responses [⟨.EMIT, "other", ""⟩]
      [⟨.BROADCAST, "m", ""⟩] ⟨.ON_CONNECTION, "m", ""⟩ rfl).2.2
      (by decide) (.boolean true) 0 [] rfl⟩

end MidwayWS
